import Mathlib

/-!
# Verification of the rond authorization gateway (rbac-service)

Shallow embedding, in Lean 4, of the policy-enforcement pipeline of the
rond / rbac-service repository:

* the OPA result handling of `OPAEvaluator.Evaluate` / `PolicyEvaluation`
  (`opaevaluator/opaevaluator.go`, `opaevaluator.go`),
* the rego-query construction of `NewOPAEvaluator` and
  `NewPartialResultEvaluator`,
* the policy-input assembly `CreateRegoQueryInput` / `createRegoQueryInput`,
* the startup evaluator cache `SetupEvaluators`,
* the request handler `EvaluateRequest` and `ReverseProxyOrResponse`
  (`handler.go`) together with a faithful model of Go's
  `net/http.ResponseWriter` header-freezing semantics,
* the OAS permission router `PrepareOASRouter` / `FindPermission`
  (openapi utils).

Go maps are embedded as association lists, machine integers as `Int`/`Nat`,
fallible code as `Except`, and the external JSON codec as an explicit
function parameter.
-/

namespace Rond

/-- A JSON-like value, the embedding of Go's `interface{}` as produced by
`encoding/json.Unmarshal` and by the OPA evaluator's expression values. -/
inductive Value where
  | null : Value
  | bool (b : Bool) : Value
  | str (s : String) : Value
  | num (n : Int) : Value
  | arr (l : List Value) : Value
  | obj (l : List (String × Value)) : Value

/-! ## OPA result sets and `Evaluate` (opaevaluator.go) -/

/-- One element of OPA's `rego.ResultSet`: a list of expression values and a
map of variable bindings (`rego.Result`). -/
structure EvalResult where
  expressions : List Value
  bindings : List (String × Value)

/-- OPA's `rego.ResultSet`. -/
abbrev ResultSet := List EvalResult

/-- Embedding of OPA's `rego.ResultSet.Allowed`: true exactly when the set is
a single result with no bindings whose single expression value is the boolean
`true`. -/
def allowedResultSet : ResultSet → Bool
  | [r] =>
    if r.bindings.length = 0 then
      match r.expressions with
      | [Value.bool b] => b
      | _ => false
    else false
  | _ => false

/-- The error message of `evaluate` when the policy denies. -/
def notAllowedErrorMessage : String :=
  "RBAC policy evaluation failed, user is not allowed"

/-- Embedding of `(evaluator *OPAEvaluator) Evaluate` (package `opaevaluator`)
and of the identical `evaluate` (package `main`), applied to the result set
returned by `PolicyEvaluator.Eval`:

* if `results.Allowed()` holds, success with no data (`nil, nil`);
* else if the set is one result whose single expression value is a non-nil,
  non-empty Go array (`[]interface{}`), success returning its first element;
* otherwise the not-allowed error. -/
def evaluate (results : ResultSet) : Except String (Option Value) :=
  if allowedResultSet results then .ok none
  else
    match results with
    | [r] =>
      match r.expressions with
      | [Value.arr (v :: vs)] =>
        -- Go: value, ok := exprs[0].Value.([]interface{}); ok && value != nil && len(value) != 0
        let _ := vs
        .ok (some v)
      | _ => .error notAllowedErrorMessage
    | _ => .error notAllowedErrorMessage

/-! ## Policy-name sanitization and rego query strings (C10) -/

/-- Go `strings.Replace(policy, ".", "_", -1)` as used by both evaluator
constructors: pattern and replacement are single characters and `n = -1`, so
the call substitutes every occurrence of `'.'` by `'_'`. -/
def sanitizedPolicy (policy : String) : String :=
  ⟨policy.data.map (fun c => if c = '.' then '_' else c)⟩

/-- The rego query string built by `NewOPAEvaluator`
(`fmt.Sprintf("data.policies.%s", sanitizedPolicy)`). -/
def newOPAEvaluatorQuery (policy : String) : String :=
  "data.policies." ++ sanitizedPolicy policy

/-- The rego query string built by `NewPartialResultEvaluator`
(`fmt.Sprintf("data.policies.%s", sanitizedPolicy)`). -/
def newPartialResultEvaluatorQuery (policy : String) : String :=
  "data.policies." ++ sanitizedPolicy policy

/-! ## The `get_header` built-in (modelled from the spec) -/

/-- Headers as a multi-map, Go's `http.Header` (`map[string][]string`). -/
abbrev Header := List (String × List String)

/-- Character-wise lowercase conversion of a string (`strings.ToLower` for
ASCII header names). -/
def lowerString (s : String) : String :=
  ⟨s.data.map Char.toLower⟩

/-- Modelled from the spec: the `custom_builtins` package that implements the
`get_header` rego built-in is not among the sources (only its tests and call
sites are). Spec: "`get_header(name, headers)` — case-insensitive header
lookup returning the first value or `\x22\x22`". -/
def get_header (name : String) (headers : Header) : String :=
  match headers.find? (fun kv => lowerString kv.1 = lowerString name) with
  | some (_, v :: _) => v
  | _ => ""

/-! ## Go `net/http` header canonicalization -/

/-- Valid MIME token characters (`net/textproto.validHeaderFieldByte`). -/
def isTokenChar (c : Char) : Bool :=
  c.isAlphanum ||
    c ∈ ['!', '#', '$', '%', '&', Char.ofNat 39, '*', '+', '-', '.', '^',
      '_', Char.ofNat 96, '|', '~']

/-- Character pass of `textproto.CanonicalMIMEHeaderKey`: uppercase the first
letter and every letter following a hyphen, lowercase the rest. -/
def canonicalChars (upper : Bool) : List Char → List Char
  | [] => []
  | c :: cs => (if upper then c.toUpper else c.toLower) :: canonicalChars (c = '-') cs

/-- Go `textproto.CanonicalMIMEHeaderKey`: keys containing an invalid byte
are returned unchanged, otherwise they are canonicalized. -/
def canonicalMIMEHeaderKey (s : String) : String :=
  if s.data.all isTokenChar then ⟨canonicalChars true s.data⟩ else s

/-- Go `http.Header.Get`: canonicalize the key, return the first value of the
entry, or the empty string when absent. -/
def headerGet (h : Header) (key : String) : String :=
  match h.find? (fun kv => kv.1 = canonicalMIMEHeaderKey key) with
  | some (_, v :: _) => v
  | _ => ""

/-- Go `http.Header.Set`: canonicalize the key and replace the entry with the
single given value. -/
def headerSet (h : Header) (key value : String) : Header :=
  let k := canonicalMIMEHeaderKey key
  if h.any (fun kv => kv.1 = k) then
    h.map (fun kv => if kv.1 = k then (k, [value]) else kv)
  else h ++ [(k, [value])]

/-- `utils.HasApplicationJSONContentType` (internal/utils):
`strings.HasPrefix(headers.Get("content-type"), "application/json")`. -/
def hasApplicationJSONContentType (h : Header) : Bool :=
  "application/json".data.isPrefixOf (headerGet h "content-type").data

/-! ## Requests and the policy input (CreateRegoQueryInput) -/

/-- The slice of `http.Request` consumed by the embedded functions. `body` is
the content of the single-shot body stream; `bodyReads` counts how many times
the stream has been drained by `ioutil.ReadAll`. -/
structure Request where
  method : String
  path : String
  header : Header
  contentLength : Int
  query : List (String × List String)
  pathParams : List (String × String)
  body : String
  bodyReads : Nat

/-- The slice of `config.EnvironmentVariables` consumed by the embedded
functions. -/
structure EnvironmentVariables where
  userPropertiesHeader : String
  userGroupsHeader : String
  clientTypeHeader : String
  standalone : Bool

/-- `types.User` as consumed by `CreateRegoQueryInput` (bindings and roles
are opaque documents here). -/
structure User where
  userBindings : List Value
  userRoles : List Value

/-- `opaevaluator.InputRequest`. -/
structure InputRequest where
  method : String
  path : String
  body : Value
  headers : Header
  query : List (String × List String)
  pathParams : List (String × String)

/-- `opaevaluator.InputResponse`. -/
structure InputResponse where
  body : Value

/-- `opaevaluator.InputUser`. -/
structure InputUser where
  properties : Value
  groups : List String
  bindings : List Value
  roles : List Value

/-- `opaevaluator.Input`, the structured policy input (the Go code JSON-
marshals this structure; the claims are about its fields). -/
structure Input where
  request : InputRequest
  response : InputResponse
  user : InputUser
  clientType : String

/-- Go `strings.Split(s, ",")` (no empty-part removal). -/
def splitCommaChars : List Char → List Char → List String
  | [], acc => [⟨acc.reverse⟩]
  | c :: cs, acc =>
    if c = ',' then ⟨acc.reverse⟩ :: splitCommaChars cs []
    else splitCommaChars cs (c :: acc)

/-- Go `strings.Split(s, ",")` on a string. -/
def splitComma (s : String) : List String :=
  splitCommaChars s.data []

/-- The body-parse gate of `CreateRegoQueryInput` (package `opaevaluator`):
`utils.HasApplicationJSONContentType(req.Header) && req.ContentLength > 0 &&
(req.Method == PATCH || req.Method == POST || req.Method == PUT)`. -/
def shouldParseJSONBody (req : Request) : Bool :=
  hasApplicationJSONContentType req.header &&
    decide (req.contentLength > 0) &&
    (req.method = "PATCH" || req.method = "POST" || req.method = "PUT")

/-- The body-parse gate of `createRegoQueryInput` (package `main`), which
additionally admits DELETE. -/
def shouldParseJSONBodyMain (req : Request) : Bool :=
  hasApplicationJSONContentType req.header &&
    decide (req.contentLength > 0) &&
    (req.method = "PATCH" || req.method = "POST" || req.method = "PUT" ||
      req.method = "DELETE")

/-- `utils.UnmarshalHeader(req.Header, env.UserPropertiesHeader, &props)` as
used by `CreateRegoQueryInput`: an absent/empty header leaves the fresh empty
map; a present header must JSON-decode into a `map[string]interface{}`
(decoding a non-object fails), else the input creation fails.
`jsonParse` is the external `encoding/json.Unmarshal` into `interface{}`. -/
def unmarshalUserProperties (jsonParse : String → Option Value)
    (h : Header) (key : String) : Except String Value :=
  let raw := headerGet h key
  if raw = "" then Except.ok (Value.obj [])
  else
    match jsonParse raw with
    | some (Value.obj o) => Except.ok (Value.obj o)
    | _ => Except.error "user properties header is not valid"

/-- Common core of `CreateRegoQueryInput` (package `opaevaluator`) and
`createRegoQueryInput` (package `main`); the two differ only in the
body-parse gate. Returns the assembled `Input` together with the request as
left for the downstream proxy (body restored, reads counted). -/
def createRegoQueryInputWith (gate : Request → Bool)
    (jsonParse : String → Option Value) (req : Request)
    (env : EnvironmentVariables) (user : User) (responseBody : Value) :
    Except String (Input × Request) :=
  match unmarshalUserProperties jsonParse req.header
    env.userPropertiesHeader with
  | Except.error e => Except.error e
  | Except.ok userProperties =>
  let userGroupsNotSplitted := headerGet req.header env.userGroupsHeader
  let userGroup :=
    if userGroupsNotSplitted ≠ "" then splitComma userGroupsNotSplitted
    else []
  let baseInput : Input :=
    { clientType := headerGet req.header env.clientTypeHeader
      request :=
        { method := req.method
          path := req.path
          body := Value.null
          headers := req.header
          query := req.query
          pathParams := req.pathParams }
      response := { body := responseBody }
      user :=
        { bindings := user.userBindings
          roles := user.userRoles
          properties := userProperties
          groups := userGroup } }
  if gate req then
    -- bodyBytes, _ := ioutil.ReadAll(req.Body) — drains the stream once
    let bodyBytes := req.body
    match jsonParse bodyBytes with
    | none => Except.error "failed request body deserialization"
    | some parsedBody =>
      -- req.Body = ioutil.NopCloser(bytes.NewBuffer(bodyBytes))
      Except.ok
        ({ baseInput with
            request := { baseInput.request with body := parsedBody } },
          { req with body := bodyBytes, bodyReads := req.bodyReads + 1 })
  else
    Except.ok (baseInput, req)

/-- `opaevaluator.CreateRegoQueryInput` (the variant called by
`handler.go`). -/
def CreateRegoQueryInput (jsonParse : String → Option Value) (req : Request)
    (env : EnvironmentVariables) (user : User) (responseBody : Value) :
    Except String (Input × Request) :=
  createRegoQueryInputWith shouldParseJSONBody jsonParse req env user
    responseBody

/-- `createRegoQueryInput` from the flattened `package main` variant of the
evaluator file (same code, but its gate also admits DELETE). -/
def createRegoQueryInputMain (jsonParse : String → Option Value)
    (req : Request) (env : EnvironmentVariables) (user : User)
    (responseBody : Value) : Except String (Input × Request) :=
  createRegoQueryInputWith shouldParseJSONBodyMain jsonParse req env user
    responseBody

/-! ## Permissions (openapi) -/

/-- `openapi.RowFilterConfiguration`. -/
structure RowFilterConfiguration where
  enabled : Bool
  headerKey : String
deriving DecidableEq

/-- `openapi.ResourceFilter`. -/
structure ResourceFilter where
  rowFilter : RowFilterConfiguration
deriving DecidableEq

/-- `openapi.ResponseFilterConfiguration`. -/
structure ResponseFilterConfiguration where
  policy : String
deriving DecidableEq

/-- `openapi.XPermission`. -/
structure XPermission where
  allowPermission : String
  responseFilter : ResponseFilterConfiguration
  resourceFilter : ResourceFilter
deriving DecidableEq

/-! ## Go `net/http.ResponseWriter` semantics -/

/-- The observable state of a Go `http.ResponseWriter`. Go's `net/http`
snapshots the handler's header map at the first `WriteHeader` call
("Changing the header map after a call to WriteHeader (or Write) has no
effect unless the modified headers are trailers"): `sentHeaders` is that
snapshot — what actually goes on the wire — while `headerMap` is the map the
handler keeps mutating. -/
structure ResponseWriter where
  headerMap : Header
  status : Option Nat
  sentHeaders : Header
  body : String

/-- A fresh response writer. -/
def newResponseWriter : ResponseWriter :=
  { headerMap := [], status := none, sentHeaders := [], body := "" }

/-- `w.Header().Set(k, v)`: mutates the handler's header map (invisible on
the wire once the status has been written). -/
def rwSetHeader (w : ResponseWriter) (k v : String) : ResponseWriter :=
  { w with headerMap := headerSet w.headerMap k v }

/-- `w.WriteHeader(code)`: on the first call, writes the status and freezes
the current header map; later calls are no-ops. -/
def rwWriteHeader (w : ResponseWriter) (code : Nat) : ResponseWriter :=
  match w.status with
  | some _ => w
  | none => { w with status := some code, sentHeaders := w.headerMap }

/-- `w.Write(s)`: writes the header with status 200 if not yet written, then
appends to the body. -/
def rwWrite (w : ResponseWriter) (s : String) : ResponseWriter :=
  let w := rwWriteHeader w 200
  { w with body := w.body ++ s }

/-- The serialization of `types.RequestError` written by
`utils.FailResponseWithCode`; its exact JSON shape does not matter to any
claim, only that some encoding of the three fields is written. -/
def requestErrorBody (_statusCode : Nat)
    (technicalError businessError : String) : String :=
  "error(" ++ technicalError ++ "; " ++ businessError ++ ")"

/-- `utils.FailResponseWithCode` (internal/utils): `WriteHeader(statusCode)`,
marshal the `RequestError`, `Header().Set(content-type, application/json)`,
`Write(content)` — in this order, faithfully (the content type is set after
the status is written). -/
def failResponseWithCode (w : ResponseWriter) (statusCode : Nat)
    (technicalError businessError : String) : ResponseWriter :=
  let w := rwWriteHeader w statusCode
  let w := rwSetHeader w "content-type" "application/json"
  rwWrite w (requestErrorBody statusCode technicalError businessError)

/-! ## The request handler (handler.go) -/

/-- `handler.go` constants. -/
def BASE_ROW_FILTER_HEADER_KEY : String := "acl_rows"

/-- `handler.go` constants. -/
def NO_PERMISSIONS_ERROR_MESSAGE : String :=
  "You do not have permissions to access this feature, contact the project administrator for more information."

/-- `types.GENERIC_BUSINESS_ERROR_MESSAGE`. -/
def GENERIC_BUSINESS_ERROR_MESSAGE : String :=
  "Internal server error, please try again later"

/-- The error of `PolicyEvaluation` as discriminated by `EvaluateRequest`:
`opatranslator.ErrEmptyQuery` (the filter translated to an unsatisfiable
predicate) or any other evaluation failure. -/
inductive PolicyEvalError where
  | emptyQuery : PolicyEvalError
  | generic (msg : String) : PolicyEvalError

/-- Whether the upstream (reverse proxy) was invoked. -/
inductive UpstreamAction where
  | notCalled : UpstreamAction
  | proxied : UpstreamAction

/-- Result of `EvaluateRequest`: the response writer, the request as mutated
(body restored, filter header injected), and whether the handler may proceed
to the proxy (`err == nil`). -/
structure EvalReqResult where
  writer : ResponseWriter
  request : Request
  succeeded : Bool

/-- Embedding of `EvaluateRequest` (handler.go). The external collaborators
are explicit arguments: `userResult` is the outcome of
`mongoclient.RetrieveUserBindingsAndRoles`, `acquireCached` of
`partialResultsEvaluators.GetEvaluatorFromPolicy`, `acquireFresh` of
`CreateQueryEvaluator`, `policyEval` of
`evaluatorAllowPolicy.PolicyEvaluation` (data, optional row-filter query),
and `marshalQuery` of `json.Marshal` on the query. -/
def evaluateRequest (userResult : Except String User)
    (jsonParse : String → Option Value)
    (acquireCached : Except String Unit) (acquireFresh : Except String Unit)
    (policyEval : Except PolicyEvalError (Option Value × Option Value))
    (marshalQuery : Value → Option String)
    (req : Request) (env : EnvironmentVariables) (w : ResponseWriter)
    (permission : XPermission) : EvalReqResult :=
  match userResult with
  | Except.error _ =>
    ⟨failResponseWithCode w 500 "user bindings retrieval failed"
      GENERIC_BUSINESS_ERROR_MESSAGE, req, false⟩
  | Except.ok user =>
  match CreateRegoQueryInput jsonParse req env user Value.null with
  | Except.error _ =>
    ⟨failResponseWithCode w 500 "RBAC input creation failed"
      GENERIC_BUSINESS_ERROR_MESSAGE, req, false⟩
  | Except.ok (_input, req1) =>
  match (if permission.resourceFilter.rowFilter.enabled = false then
      acquireCached
    else acquireFresh) with
  | Except.error _ =>
    if permission.resourceFilter.rowFilter.enabled = false then
      ⟨failResponseWithCode w 500 "failed partial evaluator retrieval"
        GENERIC_BUSINESS_ERROR_MESSAGE, req1, false⟩
    else
      ⟨failResponseWithCode w 403 "RBAC policy evaluator creation failed"
        NO_PERMISSIONS_ERROR_MESSAGE, req1, false⟩
  | Except.ok _ =>
  match policyEval with
  | Except.error e =>
    if (match e with | PolicyEvalError.emptyQuery => true | _ => false) &&
        hasApplicationJSONContentType req1.header then
      -- w.WriteHeader(200); w.Header().Set(content-type, json); w.Write("[]")
      let w := rwWriteHeader w 200
      let w := rwSetHeader w "content-type" "application/json"
      let w := rwWrite w "[]"
      ⟨w, req1, false⟩
    else
      ⟨failResponseWithCode w 403 "RBAC policy evaluation failed"
        NO_PERMISSIONS_ERROR_MESSAGE, req1, false⟩
  | Except.ok (_data, query) =>
  match query with
  | none => ⟨w, req1, true⟩
  | some q =>
    match marshalQuery q with
    | none =>
      ⟨failResponseWithCode w 403 "Error while marshaling row filter query"
        GENERIC_BUSINESS_ERROR_MESSAGE, req1, false⟩
    | some queryToProxy =>
      let queryHeaderKey :=
        if permission.resourceFilter.rowFilter.headerKey ≠ "" then
          permission.resourceFilter.rowFilter.headerKey
        else BASE_ROW_FILTER_HEADER_KEY
      ⟨w, { req1 with
        header := headerSet req1.header queryHeaderKey queryToProxy }, true⟩

/-- Embedding of `ReverseProxyOrResponse` (handler.go): in standalone mode,
echo the request's `acl_rows` header onto the response, write status 200 and
an empty body without calling the upstream; otherwise hand over to the
reverse proxy. -/
def reverseProxyOrResponse (env : EnvironmentVariables) (w : ResponseWriter)
    (req : Request) : ResponseWriter × UpstreamAction :=
  if env.standalone then
    let w := rwSetHeader w BASE_ROW_FILTER_HEADER_KEY
      (headerGet req.header BASE_ROW_FILTER_HEADER_KEY)
    let w := rwWriteHeader w 200
    let w := rwWrite w ""
    (w, UpstreamAction.notCalled)
  else (w, UpstreamAction.proxied)

/-- Embedding of `rbacHandler` (handler.go) after context retrieval: run
`EvaluateRequest`; on error return without touching the upstream, otherwise
`ReverseProxyOrResponse`. -/
def rbacHandlerPipeline (userResult : Except String User)
    (jsonParse : String → Option Value)
    (acquireCached : Except String Unit) (acquireFresh : Except String Unit)
    (policyEval : Except PolicyEvalError (Option Value × Option Value))
    (marshalQuery : Value → Option String)
    (req : Request) (env : EnvironmentVariables) (w : ResponseWriter)
    (permission : XPermission) : ResponseWriter × UpstreamAction :=
  let r := evaluateRequest userResult jsonParse acquireCached acquireFresh
    policyEval marshalQuery req env w permission
  if r.succeeded then reverseProxyOrResponse env r.writer r.request
  else (r.writer, UpstreamAction.notCalled)

/-! ## The evaluator cache (SetupEvaluators) -/

/-- `openapi.PathVerbs`: verb (lowercased) → x-permission of the
`VerbConfig`. -/
abbrev PathVerbs := List (String × XPermission)

/-- `openapi.OpenAPIPaths`. -/
abbrev OpenAPIPaths := List (String × PathVerbs)

/-- The `if _, ok := policyEvaluators[policy]; !ok` block of
`SetupEvaluators`: compile and store the policy's partial-result evaluator
unless it is already cached. `compile` stands for
`NewPartialResultEvaluator` and `R` for `*rego.PartialResult`. -/
def ensurePolicy {R : Type} (compile : String → Except String R)
    (cache : List (String × R)) (policy : String) :
    Except String (List (String × R)) :=
  if cache.any (fun kv => kv.1 = policy) then Except.ok cache
  else
    match compile policy with
    | Except.error e =>
      Except.error ("error during evaluator creation: " ++ e)
    | Except.ok r => Except.ok (cache ++ [(policy, r)])

/-- The inner loop of `SetupEvaluators` over one path's verbs: skip verbs
with an empty allow policy entirely (comment in the source: "allow policy is
required, if missing assume the API has no x-permission configuration"),
otherwise cache the allow policy and — when non-empty — the response
policy. -/
def setupVerbs {R : Type} (compile : String → Except String R) :
    PathVerbs → List (String × R) → Except String (List (String × R))
  | [], cache => Except.ok cache
  | (_, xPermission) :: rest, cache =>
    if xPermission.allowPermission = "" then
      setupVerbs compile rest cache
    else
      match ensurePolicy compile cache xPermission.allowPermission with
      | Except.error e => Except.error e
      | Except.ok cache1 =>
        match (if xPermission.responseFilter.policy ≠ "" then
            ensurePolicy compile cache1 xPermission.responseFilter.policy
          else Except.ok cache1) with
        | Except.error e => Except.error e
        | Except.ok cache2 => setupVerbs compile rest cache2

/-- The outer loop of `SetupEvaluators` over the OAS paths. -/
def setupPaths {R : Type} (compile : String → Except String R) :
    OpenAPIPaths → List (String × R) → Except String (List (String × R))
  | [], cache => Except.ok cache
  | (_, verbs) :: rest, cache =>
    match setupVerbs compile verbs cache with
    | Except.error e => Except.error e
    | Except.ok cache1 => setupPaths compile rest cache1

/-- `opaevaluator.SetupEvaluators` (and the identical `setupEvaluators` of
the flattened `package main` variant): fold the whole OAS specification into
the policy-evaluator cache, starting from the empty cache. -/
def SetupEvaluators {R : Type} (compile : String → Except String R)
    (oas : OpenAPIPaths) : Except String (List (String × R)) :=
  setupPaths compile oas []

/-! ## The OAS permission router (PrepareOASRouter / FindPermission) -/

/-- `strings.ToUpper` for ASCII method names. -/
def upperString (s : String) : String :=
  ⟨s.data.map Char.toUpper⟩

/-- `createRoutesMap`: the set of `OASPath + "/" + strings.ToUpper(method)`
keys of the specification. -/
def createRoutesMap (oas : OpenAPIPaths) : List String :=
  oas.flatMap (fun pv => pv.2.map (fun mv => pv.1 ++ "/" ++ upperString mv.1))

/-- `RoutesMap.contains`: membership of `path + "/" + method`. -/
def routesMapContains (m : List String) (path method : String) : Bool :=
  (path ++ "/" ++ method) ∈ m

/-- `cleanWildcard`: when the path ends in `*`, replace the `*` by `*param`
(a bunrouter wildcard parameter). -/
def cleanWildcard (path : String) : String :=
  if "*".data.isSuffixOf path.data then
    ⟨path.data.flatMap (fun c => if c = '*' then "*param".data else [c])⟩
  else path

/-- Word characters of the regex `\w`. -/
def isWordChar (c : Char) : Bool :=
  c.isAlphanum || c = '_'

/-- Fuel-driven scan implementing
`regexp.MustCompile(\x27\/{(\w+)}\x27).ReplaceAllString(path, "/:$1")`
(`utils.ConvertPathVariablesToColons`): every `/{word}` occurrence becomes
`/:word`. Each step consumes at least one character, so `fuel = length`
suffices. -/
def convertColonChars : Nat → List Char → List Char
  | 0, cs => cs
  | _ + 1, [] => []
  | fuel + 1, c :: rest =>
    if c = '/' then
      match rest with
      | [] => ['/']
      | c2 :: rest2 =>
        if c2 = Char.ofNat 123 then
          let w := rest2.takeWhile isWordChar
          let rem := rest2.dropWhile isWordChar
          match w, rem with
          | _ :: _, c3 :: rem2 =>
            if c3 = Char.ofNat 125 then
              '/' :: ':' :: (w ++ convertColonChars fuel rem2)
            else '/' :: convertColonChars fuel rest
          | _, _ => '/' :: convertColonChars fuel rest
        else '/' :: convertColonChars fuel rest
    else c :: convertColonChars fuel rest

/-- `utils.ConvertPathVariablesToColons`. -/
def convertPathVariablesToColons (path : String) : String :=
  ⟨convertColonChars path.data.length path.data⟩

/-- One registered route of the bunrouter-backed OAS router. The Go handler
encodes the permission in four recorder headers and `FindPermission` decodes
them back (a lossless `FormatBool`/`ParseBool` round trip), so the route is
modelled as carrying the permission itself. -/
structure Route where
  method : String
  path : String
  perm : XPermission

/-- The standard verbs the `ALL` sentinel expands to (the Go code unrolls
this loop literally: GET, POST, PUT, PATCH, DELETE, in this order). -/
def standardVerbs : List String := ["GET", "POST", "PUT", "PATCH", "DELETE"]

/-- The registrations produced by one `(method, methodContent)` entry of
`PrepareOASRouter`: a non-`ALL` method is registered directly; `ALL` is
registered for every standard verb not claimed at the same OAS path. -/
def registerEntry (routeMap : List String) (cleaned oasPath : String)
    (method : String) (xp : XPermission) : List Route :=
  let scopedMethod := upperString method
  if scopedMethod ≠ "ALL" then [⟨scopedMethod, cleaned, xp⟩]
  else
    standardVerbs.flatMap (fun v =>
      if routesMapContains routeMap oasPath v then []
      else [⟨v, cleaned, xp⟩])

/-- `PrepareOASRouter`: the full route table of the specification. -/
def prepareOASRouter (oas : OpenAPIPaths) : List Route :=
  let routeMap := createRoutesMap oas
  oas.flatMap (fun pv =>
    let cleaned := convertPathVariablesToColons (cleanWildcard pv.1)
    pv.2.flatMap (fun mv => registerEntry routeMap cleaned pv.1 mv.1 mv.2))

/-- Split a path into `/`-separated segments (keeping empty segments, so
`/a/` is `["", "a", ""]`). -/
def splitSlashChars : List Char → List Char → List String
  | [], acc => [⟨acc.reverse⟩]
  | c :: cs, acc =>
    if c = '/' then ⟨acc.reverse⟩ :: splitSlashChars cs []
    else splitSlashChars cs (c :: acc)

/-- Split a path string into segments. -/
def splitSlash (s : String) : List String :=
  splitSlashChars s.data []

/-- Whether a route-template segment matches a path segment list, in the
bunrouter dialect: a `*name` segment swallows the rest, a `:name` segment
matches one non-empty segment, anything else matches literally. -/
def matchSegs : List String → List String → Bool
  | [], ps => ps.isEmpty
  | t :: ts, ps =>
    if t.data.headD ' ' = '*' then true
    else
      match ps with
      | [] => false
      | p :: ps' =>
        if t.data.headD ' ' = ':' then (p ≠ "") && matchSegs ts ps'
        else (t = p) && matchSegs ts ps'

/-- Specificity of one template segment: static (2) over parameter (1) over
wildcard (0) — bunrouter's radix-tree edge priority. -/
def segKind (t : String) : Nat :=
  if t.data.headD ' ' = '*' then 0
  else if t.data.headD ' ' = ':' then 1
  else 2

/-- Lexicographic left-to-right specificity comparison of two templates. -/
def moreSpecific : List String → List String → Bool
  | a :: as, b :: bs =>
    if segKind a > segKind b then true
    else if segKind a < segKind b then false
    else moreSpecific as bs
  | _ :: _, [] => true
  | [], _ => false

/-- Pick the most specific matching route (bunrouter walks static edges
before parameters before wildcards). -/
def pickBest (routes : List Route) : Option Route :=
  routes.foldl (fun acc r =>
    match acc with
    | none => some r
    | some best =>
      if moreSpecific (splitSlash r.path) (splitSlash best.path) then some r
      else some best) none

/-- `FindPermission` over the prepared router: serve `(method, path)` and
return the route's permission, or the not-found error when no route
matches. -/
def findPermission (routes : List Route) (path method : String) :
    Except String XPermission :=
  let segs := splitSlash path
  let candidates := routes.filter (fun r =>
    r.method = method && matchSegs (splitSlash r.path) segs)
  match pickBest candidates with
  | some r => Except.ok r.perm
  | none =>
    Except.error ("not found oas permission: " ++ method ++ " " ++ path)

end Rond

/-! # Theorems -/

namespace Rond

/-- **C10** — Both the full evaluator (`NewOPAEvaluator`) and the precompiled
partial-result evaluator (`NewPartialResultEvaluator`) query the rego rule
`data.policies.s(p)` where `s(p)` replaces every `'.'` in the policy name `p`
with `'_'`; in particular the configured name `very.composed.policy` yields
the query `data.policies.very_composed_policy`, i.e. it is resolved by a rule
named `very_composed_policy` in package `policies`. -/
theorem newOPAEvaluatorQuery_eq_sanitized (p : String) :
    newOPAEvaluatorQuery p =
      "data.policies." ++ String.mk (p.data.map (fun c => if c = Char.ofNat 46 then Char.ofNat 95 else c)) ∧
    newPartialResultEvaluatorQuery p =
      "data.policies." ++ String.mk (p.data.map (fun c => if c = Char.ofNat 46 then Char.ofNat 95 else c)) ∧
    newOPAEvaluatorQuery "very.composed.policy" =
      "data.policies.very_composed_policy" ∧
    newPartialResultEvaluatorQuery "very.composed.policy" =
      "data.policies.very_composed_policy" := by
  refine ⟨rfl, rfl, ?_, ?_⟩ <;> decide

/-- **C1 (counterexample)** — `Evaluate` can succeed although `Allowed()` is
false: when the sole result's sole expression value is the non-empty array
`["a"]`, the evaluation succeeds with data `"a"`, yet the result set — while
non-empty — is not `allowed`. This refutes "a full policy evaluation succeeds
if and only if the evaluation's query/result set is non-empty and `allowed`
is true". -/
theorem evaluate_ok_with_allowed_false :
    evaluate [⟨[Value.arr [Value.str "a"]], []⟩] =
      Except.ok (some (Value.str "a")) ∧
    allowedResultSet [⟨[Value.arr [Value.str "a"]], []⟩] = false ∧
    ([⟨[Value.arr [Value.str "a"]], []⟩] : ResultSet) ≠ [] :=
  ⟨rfl, rfl, by simp⟩

/-- Helper: an allowed result set evaluates to success with no data. -/
theorem evaluate_of_allowed (rs : ResultSet)
    (hA : allowedResultSet rs = true) : evaluate rs = Except.ok none := by
  unfold evaluate
  rw [if_pos hA]

/-- Helper: a single result whose single expression value is a non-empty
array evaluates to success returning the array's first element. -/
theorem evaluate_of_arr (v : Value) (vs : List Value)
    (binds : List (String × Value)) :
    evaluate [⟨[Value.arr (v :: vs)], binds⟩] = Except.ok (some v) := by
  rcases binds with _ | ⟨b, bs⟩ <;> rfl

/-- Helper: every error `evaluate` produces is the not-allowed error. -/
theorem evaluate_error_eq (rs : ResultSet) (e : String)
    (h : evaluate rs = Except.error e) : e = notAllowedErrorMessage := by
  unfold evaluate at h
  split at h
  · simp at h
  · split at h
    · split at h
      · simp at h
      · exact (Except.error.inj h).symm
    · exact (Except.error.inj h).symm

/-- **C1 (amended)** — A full policy evaluation succeeds iff either `allowed`
is true (a single binding-free result whose single expression value is the
boolean `true`) or the result set is a single result whose single expression
value is a non-empty array; in the first case no data is returned, in the
second the array's *first element* is the evaluation's data result; in every
other case the evaluation fails with the not-allowed error. -/
theorem evaluate_ok_characterization (rs : ResultSet) :
    ((∃ d, evaluate rs = Except.ok d) ↔
      (allowedResultSet rs = true ∨
        ∃ v vs binds, rs = [⟨[Value.arr (v :: vs)], binds⟩])) ∧
    (allowedResultSet rs = true → evaluate rs = Except.ok none) ∧
    (∀ v vs binds, rs = [⟨[Value.arr (v :: vs)], binds⟩] →
      evaluate rs = Except.ok (some v) ∧ allowedResultSet rs = false) ∧
    ((¬ ∃ d, evaluate rs = Except.ok d) →
      evaluate rs = Except.error notAllowedErrorMessage) := by
  refine ⟨?_, evaluate_of_allowed rs, ?_, ?_⟩
  · constructor
    · intro ⟨d, hd⟩
      by_cases hA : allowedResultSet rs = true
      · exact Or.inl hA
      · right
        unfold evaluate at hd
        rw [if_neg hA] at hd
        split at hd
        · rename_i r
          split at hd
          · rename_i v vs hE
            exact ⟨v, vs, r.bindings, by
              cases r
              simp only [] at hE
              simp [hE]⟩
          · simp at hd
        · simp at hd
    · intro h
      rcases h with hA | ⟨v, vs, binds, hrs⟩
      · exact ⟨none, evaluate_of_allowed rs hA⟩
      · exact ⟨some v, by rw [hrs]; exact evaluate_of_arr v vs binds⟩
  · intro v vs binds hrs
    subst hrs
    refine ⟨evaluate_of_arr v vs binds, ?_⟩
    rcases binds with _ | ⟨b, bs⟩ <;> rfl
  · intro hno
    rcases h : evaluate rs with e | d
    · exact congrArg Except.error (evaluate_error_eq rs e h)
    · exact absurd ⟨d, h⟩ hno

/-- **C1 amended (witness)** — The amended characterization instantiated on
the allowed singleton `[{expressions = [true], bindings = []}]`. -/
theorem evaluate_ok_characterization_witness :
    evaluate [⟨[Value.bool true], []⟩] = Except.ok none :=
  (evaluate_ok_characterization [⟨[Value.bool true], []⟩]).2.1 rfl

/-- **C9** — `get_header` is case-insensitive over header names: two names
with the same lowercase form look up the same header, so in particular any
case variant of a present header yields its first value; when no header key
matches (the header is absent) the result is the empty string. -/
theorem get_header_case_insensitive (n₁ n₂ : String) (hs : Header)
    (hcase : lowerString n₁ = lowerString n₂) :
    get_header n₁ hs = get_header n₂ hs ∧
    (∀ k vs, hs.find? (fun kv => lowerString kv.1 = lowerString n₁) =
        some (k, vs) → get_header n₁ hs = vs.headD "") ∧
    (hs.find? (fun kv => lowerString kv.1 = lowerString n₁) = none →
      get_header n₁ hs = "") := by
  refine ⟨?_, ?_, ?_⟩
  · unfold get_header
    rw [hcase]
  · intro k vs hfind
    unfold get_header
    rw [hfind]
    rcases vs with _ | ⟨v, vs'⟩ <;> rfl
  · intro hfind
    unfold get_header
    rw [hfind]

/-- Setting a header and reading it back under the same name yields the
value just set (both sides canonicalize the key). -/
theorem headerGet_headerSet (h : Header) (k v : String) :
    headerGet (headerSet h k v) k = v := by
  unfold headerGet headerSet
  by_cases hany : h.any (fun kv => kv.1 = canonicalMIMEHeaderKey k) = true
  · simp only [hany, if_true]
    induction h with
    | nil => simp at hany
    | cons kv t ih =>
      rcases kv with ⟨k0, vs0⟩
      by_cases hk : k0 = canonicalMIMEHeaderKey k
      · simp [List.find?, hk]
      · have hany' : t.any (fun kv => kv.1 = canonicalMIMEHeaderKey k) = true := by
          simp only [List.any_cons, Bool.or_eq_true, decide_eq_true_eq] at hany
          rcases hany with h1 | h2
          · exact absurd h1 hk
          · exact h2
        simpa [List.find?, hk] using ih hany'
  · simp only [hany, if_false]
    induction h with
    | nil => simp [List.find?]
    | cons kv t ih =>
      rcases kv with ⟨k0, vs0⟩
      have hk : ¬ k0 = canonicalMIMEHeaderKey k := by
        intro hk0
        exact hany (by simp [List.any_cons, hk0])
      have hany' : ¬ t.any (fun kv => kv.1 = canonicalMIMEHeaderKey k) = true := by
        intro h2
        exact hany (by simp [List.any_cons, h2])
      simpa [List.find?, hk] using ih hany'

/-- The status written by `utils.FailResponseWithCode` on a fresh writer. -/
theorem failResponseWithCode_status (w : ResponseWriter) (c : Nat)
    (a b : String) (hw : w.status = none) :
    (failResponseWithCode w c a b).status = some c := by
  simp [failResponseWithCode, rwWrite, rwWriteHeader, rwSetHeader, hw]

/-- A default environment configuration (the configured header names of
`config.EnvVariablesConfig`). -/
def envDefault : EnvironmentVariables :=
  { userPropertiesHeader := "miauserproperties"
    userGroupsHeader := "miausergroups"
    clientTypeHeader := "Client-Type"
    standalone := false }

/-- A user with no bindings and no roles. -/
def userEmpty : User := ⟨[], []⟩

/-- Shared lemma: when the body-parse gate is false, the input assembly
leaves `input.request.body` null and returns the request untouched (body not
consumed). -/
theorem createRegoQueryInputWith_gate_false (gate : Request → Bool)
    (jp : String → Option Value) (req : Request)
    (env : EnvironmentVariables) (user : User) (rb : Value)
    (hg : gate req = false) (out : Input × Request)
    (h : createRegoQueryInputWith gate jp req env user rb =
      Except.ok out) :
    out.1.request.body = Value.null ∧ out.2 = req := by
  unfold createRegoQueryInputWith at h
  rcases hu : unmarshalUserProperties jp req.header env.userPropertiesHeader
    with e | props
  · rw [hu] at h
    simp at h
  · rw [hu] at h
    rw [hg] at h
    simp only [Bool.false_eq_true, if_false] at h
    cases h
    exact ⟨rfl, rfl⟩

/-- Shared lemma: when the body-parse gate is true and the assembly succeeds,
the parsed body is placed in `input.request.body`, and the request handed on
carries the original body bytes with exactly one additional read. -/
theorem createRegoQueryInputWith_gate_true (gate : Request → Bool)
    (jp : String → Option Value) (req : Request)
    (env : EnvironmentVariables) (user : User) (rb : Value)
    (hg : gate req = true) (out : Input × Request)
    (h : createRegoQueryInputWith gate jp req env user rb =
      Except.ok out) :
    jp req.body = some out.1.request.body ∧
    out.2.body = req.body ∧ out.2.bodyReads = req.bodyReads + 1 := by
  unfold createRegoQueryInputWith at h
  rcases hu : unmarshalUserProperties jp req.header env.userPropertiesHeader
    with e | props
  · rw [hu] at h
    simp at h
  · rw [hu] at h
    rw [hg] at h
    simp only [if_true] at h
    rcases hp : jp req.body with _ | v
    · rw [hp] at h
      simp at h
    · rw [hp] at h
      cases h
      exact ⟨rfl, rfl, rfl⟩

/-- Shared lemma: when the gate is true but the body bytes are not valid
JSON, the input assembly fails. -/
theorem createRegoQueryInputWith_parse_failure (gate : Request → Bool)
    (jp : String → Option Value) (req : Request)
    (env : EnvironmentVariables) (user : User) (rb : Value)
    (hg : gate req = true) (hp : jp req.body = none)
    (props : Value)
    (hu : unmarshalUserProperties jp req.header env.userPropertiesHeader =
      Except.ok props) :
    createRegoQueryInputWith gate jp req env user rb =
      Except.error "failed request body deserialization" := by
  unfold createRegoQueryInputWith
  rw [hu]
  rw [hg]
  simp only [if_true]
  rw [hp]

/-- A DELETE request with a JSON content type, positive content length and a
well-formed JSON body. -/
def reqDeleteJSON : Request :=
  { method := "DELETE"
    path := "/"
    header := [("Content-Type", ["application/json"])]
    contentLength := 2
    query := []
    pathParams := []
    body := "\x7b\x7d"
    bodyReads := 0 }

/-- The JSON decoder restricted to the inputs this file evaluates concretely:
`\x7b\x7d` decodes to the empty object, everything else fails. -/
def jsonParseSample (s : String) : Option Value :=
  if s = "\x7b\x7d" then some (Value.obj []) else none

/-- **C3 (counterexample)** — A DELETE request meeting every other condition
of the gate (JSON content type, `Content-Length > 0`, valid JSON body) is NOT
parsed by `CreateRegoQueryInput`, the variant `handler.go` calls:
`input.request.body` stays null. The `package main` variant
`createRegoQueryInput` does parse it, so the claim's method set
{POST, PUT, PATCH, DELETE} only describes the latter. -/
theorem createRegoQueryInput_delete_not_parsed :
    (CreateRegoQueryInput jsonParseSample reqDeleteJSON envDefault userEmpty
        Value.null).toOption.map (fun out => out.1.request.body) =
      some Value.null ∧
    (createRegoQueryInputMain jsonParseSample reqDeleteJSON envDefault
        userEmpty Value.null).toOption.map (fun out => out.1.request.body) =
      some (Value.obj []) ∧
    hasApplicationJSONContentType reqDeleteJSON.header = true ∧
    reqDeleteJSON.contentLength > 0 ∧
    reqDeleteJSON.method = "DELETE" ∧
    jsonParseSample reqDeleteJSON.body = some (Value.obj []) :=
  ⟨rfl, rfl, rfl, by decide, rfl, rfl⟩

/-- **C3 (amended)** — The body-parse gate of `CreateRegoQueryInput` (the
variant `handler.go` calls) holds iff the Content-Type begins with
`application/json`, `Content-Length > 0`, and the method is one of POST, PUT,
PATCH — DELETE is not included (only the flattened `package main` variant
`createRegoQueryInput` additionally admits DELETE). The body is parsed into
`input.request.body` iff the gate holds; for any request failing the gate,
`input.request.body` is null and the body bytes are not consumed. -/
theorem createRegoQueryInput_gate_characterization
    (jp : String → Option Value) (req : Request)
    (env : EnvironmentVariables) (user : User) (rb : Value)
    (out : Input × Request) :
    (shouldParseJSONBody req = true ↔
      (hasApplicationJSONContentType req.header = true ∧
        req.contentLength > 0 ∧
        (req.method = "PATCH" ∨ req.method = "POST" ∨
          req.method = "PUT"))) ∧
    (shouldParseJSONBodyMain req = true ↔
      (hasApplicationJSONContentType req.header = true ∧
        req.contentLength > 0 ∧
        (req.method = "PATCH" ∨ req.method = "POST" ∨ req.method = "PUT" ∨
          req.method = "DELETE"))) ∧
    (shouldParseJSONBody req = false →
      CreateRegoQueryInput jp req env user rb = Except.ok out →
      out.1.request.body = Value.null ∧ out.2 = req) ∧
    (shouldParseJSONBody req = true →
      CreateRegoQueryInput jp req env user rb = Except.ok out →
      jp req.body = some out.1.request.body) := by
  refine ⟨?_, ?_, ?_, ?_⟩
  · simp only [shouldParseJSONBody, Bool.and_eq_true, Bool.or_eq_true,
      decide_eq_true_eq, gt_iff_lt]
    tauto
  · simp only [shouldParseJSONBodyMain, Bool.and_eq_true, Bool.or_eq_true,
      decide_eq_true_eq, gt_iff_lt]
    tauto
  · intro hg h
    exact createRegoQueryInputWith_gate_false shouldParseJSONBody jp req env
      user rb hg out h
  · intro hg h
    exact (createRegoQueryInputWith_gate_true shouldParseJSONBody jp req env
      user rb hg out h).1

/-- **C3 amended (witness)** — The gate characterization instantiated on the
concrete DELETE request: its gate is false, and the assembly leaves the body
null and the request untouched. -/
theorem createRegoQueryInput_gate_characterization_witness :
    shouldParseJSONBody reqDeleteJSON = false ∧
    (match CreateRegoQueryInput jsonParseSample reqDeleteJSON envDefault
        userEmpty Value.null with
      | Except.ok out =>
        out.1.request.body = Value.null ∧ out.2 = reqDeleteJSON
      | Except.error _ => False) := by
  refine ⟨rfl, ?_⟩
  have hok : (CreateRegoQueryInput jsonParseSample reqDeleteJSON envDefault
      userEmpty Value.null).toOption.isSome = true := rfl
  rcases h : CreateRegoQueryInput jsonParseSample reqDeleteJSON envDefault
    userEmpty Value.null with e | out
  · rw [h] at hok
    simp [Except.toOption] at hok
  · exact (createRegoQueryInput_gate_characterization jsonParseSample
      reqDeleteJSON envDefault userEmpty Value.null out).2.2.1 rfl h

/-- **C7** — The request body is read at most once during input assembly, and
when the assembly succeeds the request handed to the downstream proxy carries
the body sent by the client byte-for-byte (both for the `opaevaluator` and
for the `package main` variant). -/
theorem createRegoQueryInput_body_preserved
    (jp : String → Option Value) (req : Request)
    (env : EnvironmentVariables) (user : User) (rb : Value)
    (out : Input × Request) :
    (CreateRegoQueryInput jp req env user rb = Except.ok out →
      out.2.body = req.body ∧ out.2.bodyReads ≤ req.bodyReads + 1) ∧
    (createRegoQueryInputMain jp req env user rb = Except.ok out →
      out.2.body = req.body ∧ out.2.bodyReads ≤ req.bodyReads + 1) := by
  constructor
  · intro h
    rcases hg : shouldParseJSONBody req with _ | _
    · have := createRegoQueryInputWith_gate_false shouldParseJSONBody jp req
        env user rb hg out h
      rw [this.2]
      exact ⟨rfl, Nat.le_succ _⟩
    · have := createRegoQueryInputWith_gate_true shouldParseJSONBody jp req
        env user rb hg out h
      exact ⟨this.2.1, Nat.le_of_eq this.2.2⟩
  · intro h
    rcases hg : shouldParseJSONBodyMain req with _ | _
    · have := createRegoQueryInputWith_gate_false shouldParseJSONBodyMain jp
        req env user rb hg out h
      rw [this.2]
      exact ⟨rfl, Nat.le_succ _⟩
    · have := createRegoQueryInputWith_gate_true shouldParseJSONBodyMain jp
        req env user rb hg out h
      exact ⟨this.2.1, Nat.le_of_eq this.2.2⟩

/-- The C7 witness request: a POST whose JSON body is read for parsing. -/
def reqPostJSON : Request :=
  { method := "POST"
    path := "/"
    header := [("Content-Type", ["application/json"])]
    contentLength := 2
    query := []
    pathParams := []
    body := "\x7b\x7d"
    bodyReads := 0 }

/-- **C7 (witness)** — The body-preservation theorem instantiated on a
concrete POST request whose body passes the gate and is parsed: the restored
body equals the original and the stream was read at most once. -/
theorem createRegoQueryInput_body_preserved_witness :
    shouldParseJSONBody reqPostJSON = true ∧
    (match CreateRegoQueryInput jsonParseSample reqPostJSON envDefault
        userEmpty Value.null with
      | Except.ok out =>
        out.2.body = reqPostJSON.body ∧
          out.2.bodyReads ≤ reqPostJSON.bodyReads + 1
      | Except.error _ => False) := by
  refine ⟨rfl, ?_⟩
  have hok : (CreateRegoQueryInput jsonParseSample reqPostJSON envDefault
      userEmpty Value.null).toOption.isSome = true := rfl
  rcases h : CreateRegoQueryInput jsonParseSample reqPostJSON envDefault
    userEmpty Value.null with e | out
  · rw [h] at hok
    simp [Except.toOption] at hok
  · exact (createRegoQueryInput_body_preserved jsonParseSample reqPostJSON
      envDefault userEmpty Value.null out).1 h

/-- A generateQuery route: row filtering enabled with the default header
key. -/
def permRowFilterDefault : XPermission :=
  ⟨"allow", ⟨""⟩, ⟨⟨true, ""⟩⟩⟩

/-- A generateQuery route with a configured custom filter header name. -/
def permRowFilterCustom : XPermission :=
  ⟨"allow", ⟨""⟩, ⟨⟨true, "rowfilterquery"⟩⟩⟩

/-- A GET request with `Content-Type: application/json`. -/
def reqGetJSON : Request :=
  { method := "GET", path := "/api"
    header := [("Content-Type", ["application/json"])]
    contentLength := 0, query := [], pathParams := []
    body := "", bodyReads := 0 }

/-- A GET request with `Content-Type: text/plain`. -/
def reqGetPlain : Request :=
  { method := "GET", path := "/api"
    header := [("Content-Type", ["text/plain"])]
    contentLength := 0, query := [], pathParams := []
    body := "", bodyReads := 0 }

/-- **C2** — On a generateQuery route whose partial evaluation translates to
an empty predicate: with a JSON request the handler answers 200 with body
`[]` and never calls the upstream, and with a non-JSON request it answers
403 without calling the upstream — but in the JSON case the code calls
`w.WriteHeader(200)` *before* `w.Header().Set(content-type,
application/json)`, and Go freezes the header map at `WriteHeader`, so the
`application/json` Content-Type never reaches the wire (it only lands in the
post-snapshot header map, which is what the handler's own recorder-based
test inspects). -/
theorem emptyQuery_response_content_type_not_sent :
    (rbacHandlerPipeline (Except.ok userEmpty) jsonParseSample
        (Except.ok ()) (Except.ok ()) (Except.error PolicyEvalError.emptyQuery)
        (fun _ => none) reqGetJSON envDefault newResponseWriter
        permRowFilterDefault).1.status = some 200 ∧
    (rbacHandlerPipeline (Except.ok userEmpty) jsonParseSample
        (Except.ok ()) (Except.ok ()) (Except.error PolicyEvalError.emptyQuery)
        (fun _ => none) reqGetJSON envDefault newResponseWriter
        permRowFilterDefault).1.body = "[]" ∧
    headerGet (rbacHandlerPipeline (Except.ok userEmpty) jsonParseSample
        (Except.ok ()) (Except.ok ()) (Except.error PolicyEvalError.emptyQuery)
        (fun _ => none) reqGetJSON envDefault newResponseWriter
        permRowFilterDefault).1.sentHeaders "content-type" = "" ∧
    headerGet (rbacHandlerPipeline (Except.ok userEmpty) jsonParseSample
        (Except.ok ()) (Except.ok ()) (Except.error PolicyEvalError.emptyQuery)
        (fun _ => none) reqGetJSON envDefault newResponseWriter
        permRowFilterDefault).1.headerMap "content-type" =
      "application/json" ∧
    (rbacHandlerPipeline (Except.ok userEmpty) jsonParseSample
        (Except.ok ()) (Except.ok ()) (Except.error PolicyEvalError.emptyQuery)
        (fun _ => none) reqGetJSON envDefault newResponseWriter
        permRowFilterDefault).2 = UpstreamAction.notCalled ∧
    (rbacHandlerPipeline (Except.ok userEmpty) jsonParseSample
        (Except.ok ()) (Except.ok ()) (Except.error PolicyEvalError.emptyQuery)
        (fun _ => none) reqGetPlain envDefault newResponseWriter
        permRowFilterDefault).1.status = some 403 ∧
    (rbacHandlerPipeline (Except.ok userEmpty) jsonParseSample
        (Except.ok ()) (Except.ok ()) (Except.error PolicyEvalError.emptyQuery)
        (fun _ => none) reqGetPlain envDefault newResponseWriter
        permRowFilterDefault).2 = UpstreamAction.notCalled :=
  ⟨rfl, rfl, rfl, rfl, rfl, rfl, rfl⟩

/-- A POST request passing the body-parse gate whose body bytes are not
valid JSON. -/
def reqPostBadJSON : Request :=
  { method := "POST", path := "/api"
    header := [("Content-Type", ["application/json"])]
    contentLength := 4, query := [], pathParams := []
    body := "nope", bodyReads := 0 }

/-- **C6 (counterexample)** — A request passing the JSON-parse gate with an
invalid JSON body makes input assembly fail, but the client receives 500
(`http.StatusInternalServerError`), not a 400-class status; the upstream is
not called. -/
theorem invalid_body_gives_500_not_400 :
    shouldParseJSONBody reqPostBadJSON = true ∧
    jsonParseSample reqPostBadJSON.body = none ∧
    (rbacHandlerPipeline (Except.ok userEmpty) jsonParseSample
        (Except.ok ()) (Except.ok ()) (Except.ok (none, none))
        (fun _ => none) reqPostBadJSON envDefault newResponseWriter
        permRowFilterDefault).1.status = some 500 ∧
    ¬(400 ≤ 500 ∧ 500 < 500) ∧
    (rbacHandlerPipeline (Except.ok userEmpty) jsonParseSample
        (Except.ok ()) (Except.ok ()) (Except.ok (none, none))
        (fun _ => none) reqPostBadJSON envDefault newResponseWriter
        permRowFilterDefault).2 = UpstreamAction.notCalled :=
  ⟨rfl, rfl, rfl, by decide, rfl⟩

/-- **C6 (amended)** — For every request whose body passes the JSON-parse
gate but whose body bytes are not valid JSON, input assembly fails and the
client receives HTTP 500 (Internal Server Error, "RBAC input creation
failed"), matching the spec's own error table (`InputError` → 500); the
upstream is not called. -/
theorem evaluateRequest_invalid_body_500 (u : User)
    (jp : String → Option Value) (aC aF : Except String Unit)
    (pe : Except PolicyEvalError (Option Value × Option Value))
    (mq : Value → Option String) (req : Request)
    (env : EnvironmentVariables) (w : ResponseWriter) (perm : XPermission)
    (props : Value)
    (hg : shouldParseJSONBody req = true) (hp : jp req.body = none)
    (hu : unmarshalUserProperties jp req.header env.userPropertiesHeader =
      Except.ok props)
    (hw : w.status = none) :
    (evaluateRequest (Except.ok u) jp aC aF pe mq req env w
      perm).writer.status = some 500 ∧
    (evaluateRequest (Except.ok u) jp aC aF pe mq req env w
      perm).succeeded = false ∧
    (rbacHandlerPipeline (Except.ok u) jp aC aF pe mq req env w perm).2 =
      UpstreamAction.notCalled := by
  have hfail : CreateRegoQueryInput jp req env u Value.null =
      Except.error "failed request body deserialization" :=
    createRegoQueryInputWith_parse_failure shouldParseJSONBody jp req env u
      Value.null hg hp props hu
  have hEval : evaluateRequest (Except.ok u) jp aC aF pe mq req env w perm =
      ⟨failResponseWithCode w 500 "RBAC input creation failed"
        GENERIC_BUSINESS_ERROR_MESSAGE, req, false⟩ := by
    simp only [evaluateRequest, hfail]
  refine ⟨?_, ?_, ?_⟩
  · rw [hEval]
    exact failResponseWithCode_status w 500 _ _ hw
  · rw [hEval]
  · unfold rbacHandlerPipeline
    rw [hEval]
    rfl

/-- **C6 amended (witness)** — The 500-on-invalid-body theorem instantiated
on the concrete bad-JSON POST request. -/
theorem evaluateRequest_invalid_body_500_witness :
    shouldParseJSONBody reqPostBadJSON = true ∧
    (evaluateRequest (Except.ok userEmpty) jsonParseSample (Except.ok ())
      (Except.ok ()) (Except.ok (none, none)) (fun _ => none) reqPostBadJSON
      envDefault newResponseWriter permRowFilterDefault).writer.status =
        some 500 :=
  ⟨rfl, (evaluateRequest_invalid_body_500 userEmpty jsonParseSample
    (Except.ok ()) (Except.ok ()) (Except.ok (none, none)) (fun _ => none)
    reqPostBadJSON envDefault newResponseWriter permRowFilterDefault
    (Value.obj []) rfl rfl rfl rfl).1⟩

/-- An environment running in standalone mode. -/
def envStandalone : EnvironmentVariables :=
  { envDefault with standalone := true }

/-- **C8 (counterexample)** — Standalone mode with a route whose filter
header name is configured (`rowfilterquery`): the allowed request is
answered with a synthetic 200 and the upstream is not called, and the filter
(serialized as `FILTER`) is injected into the *request* header
`rowfilterquery`; but the synthetic response echoes only the request's
`acl_rows` header, so the response carries the filter neither under
`acl_rows` (empty) nor under the configured name (absent) — refuting "the
response carries the filter header — `acl_rows` or the route's configured
header name — containing the JSON-serialized filter predicate". -/
theorem standalone_custom_header_not_on_response :
    (rbacHandlerPipeline (Except.ok userEmpty) jsonParseSample
        (Except.ok ()) (Except.ok ())
        (Except.ok (none, some (Value.obj []))) (fun _ => some "FILTER")
        reqGetPlain envStandalone newResponseWriter
        permRowFilterCustom).1.status = some 200 ∧
    (rbacHandlerPipeline (Except.ok userEmpty) jsonParseSample
        (Except.ok ()) (Except.ok ())
        (Except.ok (none, some (Value.obj []))) (fun _ => some "FILTER")
        reqGetPlain envStandalone newResponseWriter
        permRowFilterCustom).2 = UpstreamAction.notCalled ∧
    headerGet (evaluateRequest (Except.ok userEmpty) jsonParseSample
        (Except.ok ()) (Except.ok ())
        (Except.ok (none, some (Value.obj []))) (fun _ => some "FILTER")
        reqGetPlain envStandalone newResponseWriter
        permRowFilterCustom).request.header "rowfilterquery" = "FILTER" ∧
    headerGet (rbacHandlerPipeline (Except.ok userEmpty) jsonParseSample
        (Except.ok ()) (Except.ok ())
        (Except.ok (none, some (Value.obj []))) (fun _ => some "FILTER")
        reqGetPlain envStandalone newResponseWriter
        permRowFilterCustom).1.sentHeaders "acl_rows" = "" ∧
    headerGet (rbacHandlerPipeline (Except.ok userEmpty) jsonParseSample
        (Except.ok ()) (Except.ok ())
        (Except.ok (none, some (Value.obj []))) (fun _ => some "FILTER")
        reqGetPlain envStandalone newResponseWriter
        permRowFilterCustom).1.sentHeaders "rowfilterquery" = "" ∧
    "" ≠ "FILTER" := by
  refine ⟨?_, ?_, ?_, ?_, ?_, ?_⟩
  · rfl
  · rfl
  · rfl
  · rfl
  · rfl
  · decide

/-- **C8 (amended)** — In standalone mode every allowed request is answered
with a synthetic 200 without calling the upstream, and the response carries
the `acl_rows` header echoing the request's `acl_rows` header; since a
successful evaluation injects the serialized filter into the request under
the route's query header key (`acl_rows` only when no custom key is
configured), the response's `acl_rows` header equals the JSON-serialized
filter exactly for default-key routes, while for a configured custom header
name the filter stays on the proxied request only. -/
theorem standalone_response_echoes_acl_rows
    (env : EnvironmentVariables) (w : ResponseWriter) (req : Request)
    (hstand : env.standalone = true) (hw : w.status = none) :
    ((reverseProxyOrResponse env w req).2 = UpstreamAction.notCalled ∧
      (reverseProxyOrResponse env w req).1.status = some 200 ∧
      headerGet (reverseProxyOrResponse env w req).1.sentHeaders
        BASE_ROW_FILTER_HEADER_KEY =
        headerGet req.header BASE_ROW_FILTER_HEADER_KEY) ∧
    (∀ (uR : Except String User) (jp : String → Option Value)
      (aC aF : Except String Unit)
      (pe : Except PolicyEvalError (Option Value × Option Value))
      (mq : Value → Option String) (req0 : Request)
      (env0 : EnvironmentVariables) (w0 : ResponseWriter)
      (perm : XPermission) (d : Option Value) (q : Value) (s : String),
      pe = Except.ok (d, some q) → mq q = some s →
      (evaluateRequest uR jp aC aF pe mq req0 env0 w0 perm).succeeded =
        true →
      headerGet
        (evaluateRequest uR jp aC aF pe mq req0 env0 w0 perm).request.header
        (if perm.resourceFilter.rowFilter.headerKey ≠ "" then
          perm.resourceFilter.rowFilter.headerKey
        else BASE_ROW_FILTER_HEADER_KEY) = s) := by
  constructor
  · unfold reverseProxyOrResponse
    split
    · refine ⟨rfl, ?_, ?_⟩
      · simp [rwWrite, rwWriteHeader, rwSetHeader, hw]
      · simp only [rwWrite, rwWriteHeader, rwSetHeader, hw]
        exact headerGet_headerSet w.headerMap BASE_ROW_FILTER_HEADER_KEY
          (headerGet req.header BASE_ROW_FILTER_HEADER_KEY)
    · rename_i hc
      exact absurd hstand hc
  · intro uR jp aC aF pe mq req0 env0 w0 perm d q s hpe hmq hsucc
    subst hpe
    rcases uR with e | u
    · simp [evaluateRequest] at hsucc
    · rcases hin : CreateRegoQueryInput jp req0 env0 u Value.null
        with e | ⟨inp, req1⟩
      · simp [evaluateRequest, hin] at hsucc
      · rcases hacq : (if perm.resourceFilter.rowFilter.enabled = false then
            aC else aF) with e | u2
        · simp only [evaluateRequest, hin, hacq] at hsucc
          split at hsucc <;> simp at hsucc
        · simp only [evaluateRequest, hin, hacq, hmq]
          exact headerGet_headerSet req1.header _ s

/-- **C8 amended (witness)** — The standalone echo theorem instantiated on a
default-key route: the response's `acl_rows` header carries the serialized
filter `FILTER`. -/
theorem standalone_response_echoes_acl_rows_witness :
    headerGet (rbacHandlerPipeline (Except.ok userEmpty) jsonParseSample
        (Except.ok ()) (Except.ok ())
        (Except.ok (none, some (Value.obj []))) (fun _ => some "FILTER")
        reqGetPlain envStandalone newResponseWriter
        permRowFilterDefault).1.sentHeaders BASE_ROW_FILTER_HEADER_KEY =
      "FILTER" ∧
    (rbacHandlerPipeline (Except.ok userEmpty) jsonParseSample
        (Except.ok ()) (Except.ok ())
        (Except.ok (none, some (Value.obj []))) (fun _ => some "FILTER")
        reqGetPlain envStandalone newResponseWriter
        permRowFilterDefault).1.status = some 200 := by
  have hmain := standalone_response_echoes_acl_rows envStandalone
    newResponseWriter
    (evaluateRequest (Except.ok userEmpty) jsonParseSample (Except.ok ())
      (Except.ok ()) (Except.ok (none, some (Value.obj [])))
      (fun _ => some "FILTER") reqGetPlain envStandalone newResponseWriter
      permRowFilterDefault).request rfl rfl
  have hinj := hmain.2 (Except.ok userEmpty) jsonParseSample (Except.ok ())
    (Except.ok ()) (Except.ok (none, some (Value.obj [])))
    (fun _ => some "FILTER") reqGetPlain envStandalone newResponseWriter
    permRowFilterDefault none (Value.obj []) "FILTER" rfl rfl rfl
  refine ⟨?_, ?_⟩
  · have hstep : (rbacHandlerPipeline (Except.ok userEmpty) jsonParseSample
        (Except.ok ()) (Except.ok ())
        (Except.ok (none, some (Value.obj []))) (fun _ => some "FILTER")
        reqGetPlain envStandalone newResponseWriter permRowFilterDefault) =
        reverseProxyOrResponse envStandalone newResponseWriter
          (evaluateRequest (Except.ok userEmpty) jsonParseSample
            (Except.ok ()) (Except.ok ())
            (Except.ok (none, some (Value.obj [])))
            (fun _ => some "FILTER") reqGetPlain envStandalone
            newResponseWriter permRowFilterDefault).request := rfl
    rw [hstep, hmain.1.2.2]
    exact hinj
  · rfl

/-! ### Evaluator-cache lemmas (C4) -/

/-- `ensurePolicy` only appends to the cache. -/
theorem ensurePolicy_extends {R : Type} (compile : String → Except String R)
    (cache : List (String × R)) (p : String) (c' : List (String × R))
    (h : ensurePolicy compile cache p = Except.ok c') :
    ∃ ext, c' = cache ++ ext := by
  unfold ensurePolicy at h
  split at h
  · cases h
    exact ⟨[], (List.append_nil _).symm⟩
  · split at h
    · simp at h
    · cases h
      exact ⟨_, rfl⟩

/-- After `ensurePolicy`, the policy is in the cache. -/
theorem ensurePolicy_contains {R : Type} (compile : String → Except String R)
    (cache : List (String × R)) (p : String) (c' : List (String × R))
    (h : ensurePolicy compile cache p = Except.ok c') :
    c'.any (fun kv => kv.1 = p) = true := by
  unfold ensurePolicy at h
  split at h
  · rename_i hc
    cases h
    exact hc
  · split at h
    · simp at h
    · cases h
      simp [List.any_append]

/-- Cache membership is stable under appending. -/
theorem any_key_append {R : Type} (l e : List (String × R)) (k : String)
    (h : l.any (fun kv => kv.1 = k) = true) :
    (l ++ e).any (fun kv => kv.1 = k) = true := by
  simp only [List.any_append, Bool.or_eq_true]
  exact Or.inl h

/-- The response-policy step of `setupVerbs` only appends to the cache. -/
theorem respStep_extends {R : Type} (compile : String → Except String R)
    (cache : List (String × R)) (p : String) (c' : List (String × R))
    (h : (if p ≠ "" then ensurePolicy compile cache p else Except.ok cache) =
      Except.ok c') :
    ∃ ext, c' = cache ++ ext := by
  split at h
  · exact ensurePolicy_extends compile cache p c' h
  · cases h
    exact ⟨[], (List.append_nil _).symm⟩

/-- `setupVerbs` only appends to the cache. -/
theorem setupVerbs_extends {R : Type} (compile : String → Except String R)
    (verbs : PathVerbs) :
    ∀ (cache c' : List (String × R)),
      setupVerbs compile verbs cache = Except.ok c' →
      ∃ ext, c' = cache ++ ext := by
  induction verbs with
  | nil =>
    intro cache c' h
    unfold setupVerbs at h
    cases h
    exact ⟨[], (List.append_nil _).symm⟩
  | cons hd rest ih =>
    intro cache c' h
    rcases hd with ⟨verb, xp⟩
    unfold setupVerbs at h
    split at h
    · exact ih cache c' h
    · split at h
      · simp at h
      · rename_i cache1 hens1
        split at h
        · simp at h
        · rename_i cache2 hens2
          obtain ⟨ext3, h3⟩ := ih cache2 c' h
          obtain ⟨ext2, h2⟩ := respStep_extends compile cache1
            xp.responseFilter.policy cache2 hens2
          obtain ⟨ext1, h1⟩ := ensurePolicy_extends compile cache
            xp.allowPermission cache1 hens1
          exact ⟨ext1 ++ ext2 ++ ext3, by
            rw [h3, h2, h1]
            simp [List.append_assoc]⟩

/-- `setupPaths` only appends to the cache. -/
theorem setupPaths_extends {R : Type} (compile : String → Except String R)
    (oas : OpenAPIPaths) :
    ∀ (cache c' : List (String × R)),
      setupPaths compile oas cache = Except.ok c' →
      ∃ ext, c' = cache ++ ext := by
  induction oas with
  | nil =>
    intro cache c' h
    unfold setupPaths at h
    cases h
    exact ⟨[], (List.append_nil _).symm⟩
  | cons hd rest ih =>
    intro cache c' h
    rcases hd with ⟨path, verbs⟩
    unfold setupPaths at h
    split at h
    · simp at h
    · rename_i cache1 hsv
      obtain ⟨ext2, h2⟩ := ih cache1 c' h
      obtain ⟨ext1, h1⟩ := setupVerbs_extends compile verbs cache cache1 hsv
      exact ⟨ext1 ++ ext2, by rw [h2, h1]; simp [List.append_assoc]⟩

/-- After a successful `setupVerbs`, every verb with a non-empty allow
policy has its allow policy — and, when non-empty, its response policy — in
the cache. -/
theorem setupVerbs_mem {R : Type} (compile : String → Except String R)
    (verbs : PathVerbs) :
    ∀ (cache c' : List (String × R)),
      setupVerbs compile verbs cache = Except.ok c' →
      ∀ verb xp, (verb, xp) ∈ verbs → xp.allowPermission ≠ "" →
        c'.any (fun kv => kv.1 = xp.allowPermission) = true ∧
        (xp.responseFilter.policy ≠ "" →
          c'.any (fun kv => kv.1 = xp.responseFilter.policy) = true) := by
  induction verbs with
  | nil =>
    intro cache c' h verb xp hmem
    simp at hmem
  | cons hd rest ih =>
    intro cache c' h verb xp hmem hne
    rcases hd with ⟨verb0, xp0⟩
    rcases List.mem_cons.mp hmem with heq | htail
    · injection heq with heqv heqx
      subst heqx
      unfold setupVerbs at h
      split at h
      · rename_i h0
        exact absurd h0 hne
      · split at h
        · simp at h
        · rename_i cache1 hens1
          split at h
          · simp at h
          · rename_i cache2 hens2
            obtain ⟨ext3, h3⟩ := setupVerbs_extends compile rest cache2 c' h
            obtain ⟨ext2, h2⟩ := respStep_extends compile cache1
              xp.responseFilter.policy cache2 hens2
            constructor
            · rw [h3, h2]
              exact any_key_append _ _ _ (any_key_append _ _ _
                (ensurePolicy_contains compile cache xp.allowPermission
                  cache1 hens1))
            · intro hrne
              rw [h3]
              refine any_key_append _ _ _ ?_
              rw [if_pos hrne] at hens2
              exact ensurePolicy_contains compile cache1
                xp.responseFilter.policy cache2 hens2
    · unfold setupVerbs at h
      split at h
      · exact ih cache c' h verb xp htail hne
      · split at h
        · simp at h
        · rename_i cache1 hens1
          split at h
          · simp at h
          · rename_i cache2 hens2
            exact ih cache2 c' h verb xp htail hne

/-- After a successful `setupPaths`, every route's referenced policies (for
verbs with a non-empty allow policy) are in the cache. -/
theorem setupPaths_mem {R : Type} (compile : String → Except String R)
    (oas : OpenAPIPaths) :
    ∀ (cache c' : List (String × R)),
      setupPaths compile oas cache = Except.ok c' →
      ∀ path verbs, (path, verbs) ∈ oas →
      ∀ verb xp, (verb, xp) ∈ verbs → xp.allowPermission ≠ "" →
        c'.any (fun kv => kv.1 = xp.allowPermission) = true ∧
        (xp.responseFilter.policy ≠ "" →
          c'.any (fun kv => kv.1 = xp.responseFilter.policy) = true) := by
  induction oas with
  | nil =>
    intro cache c' h path verbs hmem
    simp at hmem
  | cons hd rest ih =>
    intro cache c' h path verbs hmem verb xp hvmem hne
    rcases hd with ⟨path0, verbs0⟩
    unfold setupPaths at h
    split at h
    · simp at h
    · rename_i cache1 hsv
      rcases List.mem_cons.mp hmem with heq | htail
      · injection heq with heqp heqv
        subst heqv
        obtain ⟨ext, hext⟩ := setupPaths_extends compile rest cache1 c' h
        have hbase := setupVerbs_mem compile verbs cache cache1 hsv verb xp
          hvmem hne
        constructor
        · rw [hext]
          exact any_key_append _ _ _ hbase.1
        · intro hrne
          rw [hext]
          exact any_key_append _ _ _ (hbase.2 hrne)
      · exact ih cache1 c' h path verbs htail verb xp hvmem hne

/-- **C4 (counterexample)** — A route whose verb has an empty allow policy
but a non-empty response policy (`resp`) is skipped entirely by
`SetupEvaluators`: the startup cache is empty, so the referenced response
policy `resp` is *not* precompiled, refuting "a precompiled residual for
every distinct policy name referenced by the permission index ... the
response policies of every route". -/
theorem setupEvaluators_skips_response_without_allow :
    SetupEvaluators (fun s => Except.ok s)
      [("/p", [("get", ⟨"", ⟨"resp"⟩, ⟨⟨false, ""⟩⟩⟩)])] =
      Except.ok ([] : List (String × String)) ∧
    (⟨"", ⟨"resp"⟩, ⟨⟨false, ""⟩⟩⟩ : XPermission).responseFilter.policy =
      "resp" ∧
    ([] : List (String × String)).any (fun kv => kv.1 = "resp") = false :=
  ⟨rfl, rfl, rfl⟩

/-- **C4 (amended)** — When `SetupEvaluators` succeeds, the startup cache
holds a precompiled partial-result evaluator for the allow policy and (when
non-empty) the response policy of every route whose allow policy is
non-empty; a verb entry with an empty allow policy is skipped entirely, so
its response policy (a misconfiguration) is not precompiled. -/
theorem setupEvaluators_covers_referenced_policies {R : Type}
    (compile : String → Except String R) (oas : OpenAPIPaths)
    (cache : List (String × R))
    (h : SetupEvaluators compile oas = Except.ok cache) :
    ∀ path verbs, (path, verbs) ∈ oas →
    ∀ verb xp, (verb, xp) ∈ verbs → xp.allowPermission ≠ "" →
      cache.any (fun kv => kv.1 = xp.allowPermission) = true ∧
      (xp.responseFilter.policy ≠ "" →
        cache.any (fun kv => kv.1 = xp.responseFilter.policy) = true) :=
  setupPaths_mem compile oas [] cache h

/-- **C4 amended (witness)** — The coverage theorem instantiated on a
one-route specification carrying both an allow policy and a response
policy: both end up in the cache. -/
theorem setupEvaluators_covers_referenced_policies_witness :
    ([("allow1", "allow1"), ("resp1", "resp1")] : List (String × String)).any
        (fun kv => kv.1 = "allow1") = true ∧
    ([("allow1", "allow1"), ("resp1", "resp1")] : List (String × String)).any
        (fun kv => kv.1 = "resp1") = true := by
  have h := setupEvaluators_covers_referenced_policies
    (fun s => Except.ok s)
    [("/p", [("get", ⟨"allow1", ⟨"resp1"⟩, ⟨⟨false, ""⟩⟩⟩)])]
    [("allow1", "allow1"), ("resp1", "resp1")] rfl "/p"
    [("get", ⟨"allow1", ⟨"resp1"⟩, ⟨⟨false, ""⟩⟩⟩)] (by decide) "get"
    ⟨"allow1", ⟨"resp1"⟩, ⟨⟨false, ""⟩⟩⟩ (by decide) (by decide)
  exact ⟨h.1, h.2 (by decide)⟩

/-! ### Router lemmas (C5) -/

/-- The `all` permission of the verb-fallback scenario. -/
def permC5all : XPermission := ⟨"permission_for_all", ⟨""⟩, ⟨⟨false, ""⟩⟩⟩

/-- The `get` permission of the verb-fallback scenario. -/
def permC5get : XPermission := ⟨"permission_for_get", ⟨""⟩, ⟨⟨false, ""⟩⟩⟩

/-- The `post` permission of the verb-fallback scenario. -/
def permC5post : XPermission := ⟨"permission_for_post", ⟨""⟩, ⟨⟨false, ""⟩⟩⟩

/-- The claim's literal layout: the `all` method on a *different* path than
the get/post-specific one. -/
def oasC5claim : OpenAPIPaths :=
  [("/test/all/", [("all", permC5all)]),
   ("/test/all/verb", [("get", permC5get), ("post", permC5post)])]

/-- The layout that actually produces the claimed outcomes: the `all` method
on the same path that carries the get/post entries. -/
def oasC5fixed : OpenAPIPaths :=
  [("/test/all/", [("all", permC5all)]),
   ("/test/all/verb",
     [("get", permC5get), ("post", permC5post), ("all", permC5all)])]

/-- **C5 (counterexample)** — With the claim's literal layout (path `P =
/test/all/` carrying method `all`, path `P' = /test/all/verb` carrying `get`
and `post`), `GET P'` does match the get-specific permission, but `PUT P'`
is *not found* — the `ALL` entry registered at the distinct path `P` does
not cover `P'` — refuting "a PUT of P' yields the ALL permission". -/
theorem findPermission_all_on_other_path_not_found :
    findPermission (prepareOASRouter oasC5claim) "/test/all/verb" "GET" =
      Except.ok permC5get ∧
    findPermission (prepareOASRouter oasC5claim) "/test/all/verb" "PUT" =
      Except.error "not found oas permission: PUT /test/all/verb" ∧
    (Except.error "not found oas permission: PUT /test/all/verb" :
      Except String XPermission) ≠ Except.ok permC5all :=
  ⟨rfl, rfl, by simp⟩

/-- **C5 (amended)** — (i) A template registered with method `ALL` is
registered for exactly the standard verbs (GET, POST, PUT, PATCH, DELETE)
that have no more specific entry at the *same* OAS path; (ii) every verb
entry of a path claims that path in the routes map, so the `ALL` expansion
skips it — an exact method entry always wins over the `ALL` entry at the
same path; (iii) in particular, when `/test/all/verb` carries `get`, `post`
*and* `all`, a GET yields the get-specific permission and a PUT yields the
`ALL` permission; with the claim's literal layout — `all` only on the
distinct path `/test/all/` — the GET still yields the get-specific
permission but the PUT is not found. -/
theorem prepareOASRouter_all_expansion :
    (∀ (routeMap : List String) (cleaned oasPath : String)
      (xp : XPermission) (v : String), v ∈ standardVerbs →
      ((⟨v, cleaned, xp⟩ : Route) ∈
          registerEntry routeMap cleaned oasPath "all" xp ↔
        routesMapContains routeMap oasPath v = false)) ∧
    (∀ (oas : OpenAPIPaths) (path : String) (verbs : PathVerbs)
      (mv : String) (xp : XPermission),
      (path, verbs) ∈ oas → (mv, xp) ∈ verbs →
      routesMapContains (createRoutesMap oas) path (upperString mv) =
        true) ∧
    findPermission (prepareOASRouter oasC5fixed) "/test/all/verb" "GET" =
      Except.ok permC5get ∧
    findPermission (prepareOASRouter oasC5fixed) "/test/all/verb" "PUT" =
      Except.ok permC5all ∧
    findPermission (prepareOASRouter oasC5claim) "/test/all/verb" "GET" =
      Except.ok permC5get ∧
    findPermission (prepareOASRouter oasC5claim) "/test/all/verb" "PUT" =
      Except.error "not found oas permission: PUT /test/all/verb" := by
  refine ⟨?_, ?_, rfl, rfl, rfl, rfl⟩
  · intro routeMap cleaned oasPath xp v hv
    have hAll : upperString "all" = "ALL" := rfl
    unfold registerEntry
    rw [hAll]
    simp only [ne_eq, not_true_eq_false, if_false]
    constructor
    · intro hmem
      rcases List.mem_flatMap.mp hmem with ⟨v', hv', hin⟩
      by_cases hflag : routesMapContains routeMap oasPath v' = true
      · rw [if_pos hflag] at hin
        simp at hin
      · rw [if_neg hflag] at hin
        rcases List.mem_singleton.mp hin with h
        injection h with h1 h2 h3
        subst h1
        exact Bool.not_eq_true _ |>.mp hflag
    · intro hflag
      refine List.mem_flatMap.mpr ⟨v, hv, ?_⟩
      rw [hflag]
      simp
  · intro oas path verbs mv xp hpmem hvmem
    have hin : (path ++ "/" ++ upperString mv) ∈ createRoutesMap oas := by
      unfold createRoutesMap
      refine List.mem_flatMap.mpr ⟨(path, verbs), hpmem, ?_⟩
      exact List.mem_map.mpr ⟨(mv, xp), hvmem, rfl⟩
    unfold routesMapContains
    exact decide_eq_true hin

/-- **C5 amended (witness)** — The `ALL`-expansion and claimed-verb facts
instantiated concretely: with an empty routes map a GET registration is
produced by the `all` entry, and in the claim's layout `/test/all/verb`
claims `GET` so the expansion there would skip it. -/
theorem prepareOASRouter_all_expansion_witness :
    ((⟨"GET", "/p", permC5all⟩ : Route) ∈
      registerEntry [] "/p" "/p" "all" permC5all) ∧
    routesMapContains (createRoutesMap oasC5claim) "/test/all/verb"
      (upperString "get") = true :=
  ⟨(prepareOASRouter_all_expansion.1 [] "/p" "/p" permC5all "GET"
      (by decide)).mpr rfl,
    prepareOASRouter_all_expansion.2.1 oasC5claim "/test/all/verb"
      [("get", permC5get), ("post", permC5post)] "get" permC5get
      (by decide) (by decide)⟩

/-- **C9 (witness)** — Concrete instance: the mixed-case lookup
`get_header "ExAmPlEkEy"` agrees with the all-uppercase one on a header map
holding `Examplekey: value`, and both produce `"value"`. -/
theorem get_header_case_insensitive_witness :
    get_header "ExAmPlEkEy" [("Examplekey", ["value"])] =
      get_header "EXAMPLEKEY" [("Examplekey", ["value"])] ∧
    get_header "ExAmPlEkEy" [("Examplekey", ["value"])] = "value" :=
  ⟨(get_header_case_insensitive "ExAmPlEkEy" "EXAMPLEKEY"
      [("Examplekey", ["value"])] (by decide)).1,
    (get_header_case_insensitive "ExAmPlEkEy" "EXAMPLEKEY"
      [("Examplekey", ["value"])] (by decide)).2.1 "Examplekey" ["value"]
      (by decide)⟩

end Rond
